import Mathlib

/-!
Shallow embedding of `setuptools/command/editable_wheel.py`: the
`editable_wheel` command builds a PEP 660 "editable" wheel.  Filesystem
effects are modelled by an explicit `FS` state (a flat list of files and
directories).  External collaborators (metadata generation, wheel-level
metadata, native-extension compilation, wheel serialization, namespace shim
emission) are driven by a `World` oracle recording whether each delegated
call fails and which externally chosen names/contents it produces.
Platform path primitives (`os.path.normpath`, `realpath`, `normcase`,
`abspath`, Python `repr` on strings) are abstract fields of an `Os`
structure; a concrete POSIX-like instantiation is provided for witnesses.
-/

namespace EditableWheel

/-- Contents of a file in the modelled filesystem: a plain text file, a
completed wheel archive (the list of archived entries: name relative to the
staged directory, and text content), or a file that was opened for writing
but whose serialization did not run to completion. -/
inductive FileData where
  | text (s : String)
  | archive (entries : List (String × String))
  | halfWritten
deriving DecidableEq, Repr

/-- Flat filesystem model: an association list of files (newest entry
first, so writing is consing) and a list of existing directories. -/
structure FS where
  files : List (String × FileData)
  dirs : List String
deriving DecidableEq, Repr

/-- Boolean list-prefix test on characters (used for path containment). -/
def listPref : List Char → List Char → Bool
  | [], _ => true
  | _ :: _, [] => false
  | a :: as, b :: bs => a == b && listPref as bs

/-- Predicate `strUnder d p` holds when path `p` lies strictly inside directory `d`,
i.e. `p` starts with `d ++ "/"`. -/
def strUnder (d p : String) : Bool := listPref (d ++ "/").data p.data

/-- Models Python `str.endswith(suffix)` (a suffix is a prefix of the
reversal). -/
def strEndsWith (s suffix : String) : Bool :=
  listPref suffix.data.reverse s.data.reverse

/-- Models `os.path.join(a, b)` / `pathlib.Path(a, b)` for the uses in this
module, where the second component is always a relative entry name. -/
def pathJoin (a b : String) : String := a ++ "/" ++ b

/-- Models `pathlib.Path(p).name`: the last `/`-separated component. -/
def basename (p : String) : String := ((p.splitOn "/").getLast?).getD ""

def FS.lookup (fs : FS) (p : String) : Option FileData :=
  (fs.files.find? (fun e => e.1 == p)).map Prod.snd

/-- Writing a file: the new entry shadows any older entry for the path. -/
def FS.write (fs : FS) (p : String) (c : FileData) : FS :=
  { fs with files := (p, c) :: fs.files }

/-- Models `Path.unlink`: every entry at the path is removed. -/
def FS.unlink (fs : FS) (p : String) : FS :=
  { fs with files := fs.files.filter (fun e => !(e.1 == p)) }

/-- Models `Path.mkdir(exist_ok=True)` in the flat directory model. -/
def FS.mkdirIfAbsent (fs : FS) (d : String) : FS :=
  if fs.dirs.contains d then fs else { fs with dirs := d :: fs.dirs }

/-- Models removal of a directory tree (the cleanup performed when a
`TemporaryDirectory` context exits): the directory itself and everything
under it disappear. -/
def FS.removeTree (fs : FS) (d : String) : FS :=
  { files := fs.files.filter (fun e => !(strUnder d e.1)),
    dirs := fs.dirs.filter (fun x => !(x == d || strUnder d x)) }

/-- Models `shutil.copytree(src, dst)`: every file under `src` is copied to
the corresponding path under `dst`, and `dst` becomes a directory. -/
def FS.copytree (fs : FS) (src dst : String) : FS :=
  let copied := fs.files.filterMap (fun e =>
    if strUnder src e.1 then
      some (pathJoin dst (String.mk (e.1.data.drop (src.data.length + 1))), e.2)
    else none)
  { files := copied ++ fs.files, dirs := dst :: fs.dirs }

/-- Abstract platform primitives used by the module: `os.curdir`, the
`os.path` normalization functions, the cygwin platform test, and Python
`repr` on strings. -/
structure Os where
  curdir : String
  normpath : String → String
  realpath : String → String
  normcase : String → String
  abspath : String → String
  isCygwin : Bool
  reprStr : String → String

/-- Models Python `x or default` for an optional string configuration
value: `None` and the empty string are falsy and select the default. -/
def orElseStr (v : Option String) (d : String) : String :=
  match v with
  | some s => if s = "" then d else s
  | none => d

/-- Static configuration consumed by the command: the distribution's
`src_root`, the `--dist-dir` and `--dist-info-dir` options, the
`package_dir` mapping, the declared legacy namespace packages, the
finalized distribution name (`dist_info.name`) and the wheel tag
components (`bdist_wheel.get_tag()`). -/
structure Config where
  srcRoot : Option String
  distDirOpt : Option String
  distInfoDirOpt : Option String
  packageDir : Option (List (String × String))
  namespacePackages : List String
  distName : String
  tagComponents : List String
deriving DecidableEq, Repr

/-- Oracle for the external collaborators: whether each delegated call
raises, and the externally chosen names and contents it produces. -/
structure World where
  distInfoGenFails : Bool
  writeWheelfileFails : Bool
  buildExtFails : Bool
  copytreeFails : Bool
  namespaceEmitFails : Bool
  wheelWriteFails : Bool
  genDistInfoName : String
  metadataContent : String
  wheelMetaContent : String
  tmpBase : String
  shimBody : String
deriving DecidableEq, Repr

/-- Failures surfaced to the caller (Python exceptions propagate
unmodified; `assertionError` is the failed validation `assert`). -/
inductive Err where
  | assertionError
  | distInfoGenError
  | writeWheelfileError
  | buildExtError
  | copytreeError
  | namespaceError
  | serializeError
deriving DecidableEq, Repr

/-- Source `_normalize_path`: `normcase(realpath(normpath(file)))`, with an
`abspath` pre-pass only on cygwin. -/
def _normalize_path (os : Os) (filename : String) : String :=
  let file := if os.isCygwin then os.abspath filename else filename
  os.normcase (os.realpath (os.normpath file))

/-- Source `self.project_dir = dist.src_root or os.curdir` (from
`finalize_options`). -/
def projectDirOf (os : Os) (cfg : Config) : String :=
  orElseStr cfg.srcRoot os.curdir

/-- Source `self.dist_dir = Path(self.dist_dir or os.path.join(self.project_dir,
"dist"))` (from `finalize_options`). -/
def distDirOf (os : Os) (cfg : Config) : String :=
  orElseStr cfg.distDirOpt (pathJoin (projectDirOf os cfg) "dist")

/-- Source `finalize_options`: resolve the output directory and create it on disk
(`self.dist_dir.mkdir(exist_ok=True)`). -/
def finalize_options (os : Os) (cfg : Config) (fs : FS) : FS :=
  fs.mkdirIfAbsent (distDirOf os cfg)

/-- Source `(self.distribution.package_dir or {}).get(k)`. -/
def packageDirGet (cfg : Config) (k : String) : Option String :=
  ((cfg.packageDir.getD []).find? (fun e => e.1 == k)).map Prod.snd

/-- The `target` property:
`_normalize_path(package_dir.get("") or self.project_dir)`. -/
def target (os : Os) (cfg : Config) : String :=
  _normalize_path os (orElseStr (packageDirGet cfg "") (projectDirOf os cfg))

/-- Source `_ensure_dist_info`: when no dist-info directory was supplied, the
`dist_info` command (Metadata Provider, external — modelled from the spec:
it generates a metadata directory containing `METADATA` into the output
directory) is run; when one was supplied, the two validation `assert`s run:
its name must end with `".dist-info"` and it must contain a `METADATA`
file, and on success the supplied directory is used unchanged. -/
def _ensure_dist_info (w : World) (cfg : Config) (distDir : String) (fs : FS) :
    Except Err (String × FS) :=
  match cfg.distInfoDirOpt with
  | none =>
    if w.distInfoGenFails then .error .distInfoGenError
    else
      let d := pathJoin distDir w.genDistInfoName
      .ok (d, fs.write (pathJoin d "METADATA") (.text w.metadataContent))
  | some d =>
    if !(strEndsWith d ".dist-info") then .error .assertionError
    else if (fs.lookup (pathJoin d "METADATA")).isNone then .error .assertionError
    else .ok (d, fs)

/-- Source `_NamespaceInstaller.__init__`: records the distribution-independent
arguments the wrapper supplies to the external shim generator. -/
structure _NamespaceInstaller where
  installation_dir : String
  editable_name : String
  src_root : String
deriving DecidableEq, Repr

/-- Source `_get_target`: `os.path.join(self.installation_dir, self.editable_name)`. -/
def _NamespaceInstaller.target (i : _NamespaceInstaller) : String :=
  pathJoin i.installation_dir i.editable_name

/-- Source `_get_root`: `repr(str(self.src_root))`. -/
def _NamespaceInstaller.root (os : Os) (i : _NamespaceInstaller) : String :=
  os.reprStr i.src_root

/-- Source `_install_namespaces(installation_dir, pth_prefix)`: a no-op unless the
distribution declares legacy namespace packages; otherwise it constructs a
`_NamespaceInstaller` and runs `install_namespaces`.  The emission itself
is external (`setuptools.namespaces.Installer`, not in this module) —
modelled from the spec: it writes shim file(s) at the installation target,
embedding the module search root.  The constructed installer is returned so
its arguments can be stated. -/
def _install_namespaces (os : Os) (w : World) (cfg : Config)
    (installation_dir pth_prefix tgt : String) (fs : FS) :
    Except Err (Option _NamespaceInstaller × FS) :=
  if cfg.namespacePackages.isEmpty then .ok (none, fs)
  else
    let inst : _NamespaceInstaller :=
      { installation_dir := installation_dir, editable_name := pth_prefix,
        src_root := tgt }
    if w.namespaceEmitFails then .error .namespaceError
    else .ok (some inst,
      fs.write (inst.target ++ "-nspkg.pth") (.text (w.shimBody ++ inst.root os)))

/-- Source `build_tag = "0.editable"`. -/
def build_tag : String := "0.editable"

/-- Source `tag = "-".join(bdist_wheel.get_tag())`. -/
def wheelTagOf (cfg : Config) : String := String.intercalate "-" cfg.tagComponents

/-- Source `archive_name = f"{editable_name}-{build_tag}-{tag}.whl"`. -/
def archiveNameOf (cfg : Config) : String :=
  cfg.distName ++ "-" ++ build_tag ++ "-" ++ wheelTagOf cfg ++ ".whl"

/-- Source `wheel_path = Path(self.dist_dir, archive_name)`. -/
def wheelPathOf (cfg : Config) (distDir : String) : String :=
  pathJoin distDir (archiveNameOf cfg)

/-- The name `TemporaryDirectory(suffix=archive_name)` picks for the
staging directory: an externally chosen fresh base plus the suffix. -/
def stagingDirOf (w : World) (cfg : Config) : String :=
  w.tmpBase ++ archiveNameOf cfg

/-- The entries `WheelFile.write_files(tmp)` archives: every text file
under the staging directory, keyed by its path relative to it. -/
def stagedEntries (fs : FS) (tmp : String) : List (String × String) :=
  fs.files.filterMap (fun e =>
    if strUnder tmp e.1 then
      match e.2 with
      | .text s => some (String.mk (e.1.data.drop (tmp.data.length + 1)), s)
      | _ => none
    else none)

/-- Source `_populate_wheel`: write `__editable__.{dist_id}.pth` into the staged
directory, containing the target followed by a newline. -/
def _populate_wheel (dist_id unpacked_wheel_dir tgt : String) (fs : FS) : FS :=
  fs.write (pathJoin unpacked_wheel_dir ("__editable__." ++ dist_id ++ ".pth"))
    (.text (tgt ++ "\n"))

/-- Body of the `with TemporaryDirectory(...)` block in
`_create_wheel_file`: copy the dist-info directory into staging, emit
namespace shims, write the redirect file, then serialize the staged tree
into the archive.  `WheelFile(wheel_path, "w")` opens the file at the final
path, so the open is modelled as writing `halfWritten` there; a successful
`write_files` replaces it with the completed archive. -/
def _wheel_body (os : Os) (w : World) (cfg : Config)
    (distInfoDir tgt wheelPath tmp : String) (fs : FS) : Except Err String × FS :=
  if w.copytreeFails then (.error .copytreeError, fs)
  else
    let fs := fs.copytree distInfoDir (pathJoin tmp (basename distInfoDir))
    match _install_namespaces os w cfg tmp cfg.distName tgt fs with
    | .error e => (.error e, fs)
    | .ok (_, fs) =>
      let fs := _populate_wheel cfg.distName tmp tgt fs
      let fs := fs.write wheelPath .halfWritten
      if w.wheelWriteFails then (.error .serializeError, fs)
      else (.ok wheelPath, fs.write wheelPath (.archive (stagedEntries fs tmp)))

/-- Source `_create_wheel_file`: compute the archive path, delete any pre-existing
file there, create the staging directory, run the staging/serialization
body, and remove the staging tree on every exit path (the
`TemporaryDirectory` context guarantee). -/
def _create_wheel_file (os : Os) (w : World) (cfg : Config)
    (distDir distInfoDir tgt : String) (fs : FS) : Except Err String × FS :=
  let wheelPath := wheelPathOf cfg distDir
  let fs := if (fs.lookup wheelPath).isSome then fs.unlink wheelPath else fs
  let tmp := stagingDirOf w cfg
  let fs := fs.mkdirIfAbsent tmp
  let r := _wheel_body os w cfg distInfoDir tgt wheelPath tmp fs
  (r.1, r.2.removeTree tmp)

/-- Source `run`: ensure dist-info, write the wheel-level metadata file into it
(`bdist_wheel.write_wheelfile`, external), build extensions in place
(`build_ext`, external, modelled as changing nothing on success), then
create the wheel file.  The value `_create_wheel_file` returns is
discarded: Python's `run` has no `return`, so the command returns `None`,
modelled as `Except.ok none`. -/
def run (os : Os) (w : World) (cfg : Config) (distDir : String) (fs : FS) :
    Except Err (Option String) × FS :=
  match _ensure_dist_info w cfg distDir fs with
  | .error e => (.error e, fs)
  | .ok (distInfoDir, fs) =>
    if w.writeWheelfileFails then (.error .writeWheelfileError, fs)
    else
      let fs := fs.write (pathJoin distInfoDir "WHEEL") (.text w.wheelMetaContent)
      if w.buildExtFails then (.error .buildExtError, fs)
      else
        let r := _create_wheel_file os w cfg distDir distInfoDir (target os cfg) fs
        (match r.1 with | .error e => .error e | .ok _ => .ok none, r.2)

/-- A whole build attempt as the command framework performs it:
`finalize_options` followed by `run`. -/
def build (os : Os) (w : World) (cfg : Config) (fs : FS) :
    Except Err (Option String) × FS :=
  run os w cfg (distDirOf os cfg) (finalize_options os cfg fs)

/-- The dist-info directory a build uses: the supplied one when the option
is set, the generated one otherwise. -/
def usedDistInfoDir (w : World) (cfg : Config) (distDir : String) : String :=
  match cfg.distInfoDirOpt with
  | some d => d
  | none => pathJoin distDir w.genDistInfoName

/-- Modelled from the spec's words, for refinement comparison with
`target`: "prefer an explicitly configured root-package directory mapping
(the entry for the unnamed/root package key) over the generic project
directory" — i.e. the configured entry is used whenever one is configured
(the spec does not except an empty value). -/
def targetSpec (os : Os) (cfg : Config) : String :=
  match packageDirGet cfg "" with
  | some s => _normalize_path os s
  | none => _normalize_path os (projectDirOf os cfg)

/-- Concrete POSIX-like platform for witnesses: current directory `/cwd`,
no symbolic links, case-sensitive filesystem, Python string `repr` by
single quotes (the witness strings contain no quotes or escapes). -/
def posixOs : Os where
  curdir := "."
  normpath := fun s => if s = "" then "." else s
  realpath := fun s => if s = "." || s = "" then "/cwd" else s
  normcase := fun s => s
  abspath := fun s => if s = "." then "/cwd" else s
  isCygwin := false
  reprStr := fun s => "'" ++ s ++ "'"

/-- Witness configuration: project at `/proj`, no options set, no
namespace packages, distribution `foo-1.0`, tag `py3-none-any`. -/
def cfgA : Config where
  srcRoot := some "/proj"
  distDirOpt := none
  distInfoDirOpt := none
  packageDir := none
  namespacePackages := []
  distName := "foo-1.0"
  tagComponents := ["py3", "none", "any"]

/-- Witness world: every delegated call succeeds. -/
def wA : World where
  distInfoGenFails := false
  writeWheelfileFails := false
  buildExtFails := false
  copytreeFails := false
  namespaceEmitFails := false
  wheelWriteFails := false
  genDistInfoName := "foo-1.0.dist-info"
  metadataContent := "Metadata-Version: 2.1"
  wheelMetaContent := "Wheel-Version: 1.0"
  tmpBase := "/tmp/wheel-"
  shimBody := "shim:"

/-- World in which wheel serialization (`WheelFile.write_files`) raises. -/
def wSerFail : World := { wA with wheelWriteFails := true }

/-- Witness filesystem: just the project directory. -/
def fsA : FS where
  files := []
  dirs := ["/proj"]

/-- Configuration supplying a dist-info directory with an invalid name
(missing the `.dist-info` suffix). -/
def cfgBadSuffix : Config := { cfgA with distInfoDirOpt := some "/proj/meta" }

/-- Configuration supplying a well-named dist-info directory. -/
def cfgSupplied : Config :=
  { cfgA with distInfoDirOpt := some "/proj/foo-1.0.dist-info" }

/-- Filesystem containing the supplied dist-info directory's `METADATA`. -/
def fsSupplied : FS where
  files := [(pathJoin "/proj/foo-1.0.dist-info" "METADATA", .text "Metadata-Version: 2.1")]
  dirs := ["/proj", "/proj/foo-1.0.dist-info"]

/-- Configuration whose root-package mapping entry is the empty string
(`package_dir = {"": ""}`), with a distinct source root. -/
def cfgEmptyRootEntry : Config := { cfgA with packageDir := some [("", "")] }

/-- Configuration declaring a legacy namespace package. -/
def cfgNs : Config := { cfgA with namespacePackages := ["ns"] }

/-- World in which the in-place extension build (`build_ext`) raises. -/
def wExtFail : World := { wA with buildExtFails := true }

/-- Configuration with a non-empty root-package mapping entry
(`package_dir = {"": "/src"}`). -/
def cfgPkgDir : Config := { cfgA with packageDir := some [("", "/src")] }

/-! Helper lemmas about the filesystem model. -/

theorem listPref_append : ∀ (l t : List Char), listPref l (l ++ t) = true
  | [], _ => rfl
  | a :: as, t => by simp [listPref, listPref_append as t]

theorem data_pathJoin (d n : String) :
    (pathJoin d n).data = (d.data ++ ['/']) ++ n.data := by
  simp [pathJoin, String.data_append]

theorem strUnder_pathJoin (d n : String) : strUnder d (pathJoin d n) = true := by
  have hd : (d ++ "/").data = d.data ++ ['/'] := by simp [String.data_append]
  rw [strUnder, data_pathJoin, hd]
  exact listPref_append _ _

theorem pathJoin_ne_of_not_under (d n q : String) (h : strUnder d q = false) :
    pathJoin d n ≠ q := by
  intro hEq
  rw [← hEq, strUnder_pathJoin] at h
  exact Bool.true_eq_false.mp h

theorem relOf_pathJoin (d n : String) :
    String.mk ((pathJoin d n).data.drop (d.data.length + 1)) = n := by
  rw [data_pathJoin]
  have hl : d.data.length + 1 = (d.data ++ ['/']).length := by simp
  rw [hl, List.drop_left]

theorem pathJoin_pathJoin (a b c : String) :
    pathJoin (pathJoin a b) c = pathJoin a (b ++ "/" ++ c) := by
  simp [pathJoin, String.append_assoc]

theorem FS.lookup_write_self (fs : FS) (p : String) (c : FileData) :
    (fs.write p c).lookup p = some c := by
  simp [FS.write, FS.lookup, List.find?]

theorem FS.lookup_write_ne (fs : FS) (p : String) (c : FileData) (q : String)
    (h : p ≠ q) : (fs.write p c).lookup q = fs.lookup q := by
  simp only [FS.write, FS.lookup, List.find?]
  have : (p == q) = false := beq_eq_false_iff_ne.mpr h
  rw [this]

theorem FS.lookup_unlink_self (fs : FS) (p : String) :
    (fs.unlink p).lookup p = none := by
  simp only [FS.unlink, FS.lookup]
  have h : (fs.files.filter (fun e => !(e.1 == p))).find? (fun e => e.1 == p) = none := by
    rw [List.find?_eq_none]
    intro x hx
    have hx2 := (List.mem_filter.mp hx).2
    simp only [Bool.not_eq_eq_eq_not, Bool.not_true] at hx2
    simp [hx2]
  rw [h]
  rfl

theorem FS.files_mkdirIfAbsent (fs : FS) (d : String) :
    (fs.mkdirIfAbsent d).files = fs.files := by
  rw [FS.mkdirIfAbsent]
  split <;> rfl

theorem FS.lookup_eq_of_files (fs fs' : FS) (q : String) (h : fs.files = fs'.files) :
    fs.lookup q = fs'.lookup q := by
  rw [FS.lookup, FS.lookup, h]

theorem FS.lookup_mkdirIfAbsent (fs : FS) (d q : String) :
    (fs.mkdirIfAbsent d).lookup q = fs.lookup q :=
  FS.lookup_eq_of_files _ _ _ (FS.files_mkdirIfAbsent fs d)

theorem find?_append_of_none {α} (p : α → Bool) (l₁ l₂ : List α)
    (h : l₁.find? p = none) : (l₁ ++ l₂).find? p = l₂.find? p := by
  induction l₁ with
  | nil => rfl
  | cons a as ih =>
    rw [List.find?_cons] at h
    cases hpa : p a with
    | true => rw [hpa] at h; exact absurd h (by simp)
    | false =>
      rw [hpa] at h
      rw [List.cons_append, List.find?_cons, hpa]
      exact ih h

theorem FS.lookup_copytree_of_ne (fs : FS) (src dst q : String)
    (h : ∀ r, pathJoin dst r ≠ q) :
    (fs.copytree src dst).lookup q = fs.lookup q := by
  simp only [FS.copytree, FS.lookup]
  rw [find?_append_of_none]
  rw [List.find?_eq_none]
  intro x hx
  rcases List.mem_filterMap.mp hx with ⟨a, _, hfa⟩
  by_cases hu : strUnder src a.1 = true
  · simp only [hu, if_true] at hfa
    cases hfa
    simp [h _]
  · simp [hu] at hfa

theorem find?_filter_of_imp {α} (p g : α → Bool) (l : List α)
    (h : ∀ a, p a = true → g a = true) :
    (l.filter g).find? p = l.find? p := by
  induction l with
  | nil => rfl
  | cons a as ih =>
    cases hpa : p a with
    | true =>
      have := h a hpa
      rw [List.filter_cons, this]
      simp only [if_true, List.find?_cons, hpa]
    | false =>
      rw [List.filter_cons]
      cases hga : g a with
      | true =>
        simp only [if_true, List.find?_cons, hpa]
        exact ih
      | false =>
        simp only [Bool.false_eq_true, if_false, List.find?_cons, hpa]
        exact ih

theorem FS.lookup_removeTree_of_not_under (fs : FS) (d q : String)
    (h : strUnder d q = false) :
    (fs.removeTree d).lookup q = fs.lookup q := by
  simp only [FS.removeTree, FS.lookup]
  rw [find?_filter_of_imp]
  intro a ha
  have : a.1 = q := by
    have := beq_iff_eq.mp ha
    exact this
  rw [this, h]
  rfl

theorem contains_filter_out {l : List String} {d : String} :
    (l.filter (fun x => !(x == d || strUnder d x))).contains d = false := by
  induction l with
  | nil => rfl
  | cons a as ih =>
    rw [List.filter_cons]
    cases hpa : !(a == d || strUnder d a) with
    | true =>
      simp only [if_true]
      have hne : (a == d) = false := by
        cases had : a == d with
        | true => rw [had] at hpa; simp at hpa
        | false => rfl
      rw [List.contains_cons]
      have : (d == a) = false := by
        cases had : d == a with
        | true =>
          have := beq_iff_eq.mp had
          rw [this] at hne
          simp at hne
        | false => rfl
      rw [this, Bool.false_or]
      exact ih
    | false =>
      simp only [Bool.false_eq_true, if_false]
      exact ih

theorem FS.removeTree_contains_self (fs : FS) (d : String) :
    (fs.removeTree d).dirs.contains d = false := by
  rw [FS.removeTree]
  exact contains_filter_out

theorem FS.mkdirIfAbsent_contains_self (fs : FS) (d : String) :
    (fs.mkdirIfAbsent d).dirs.contains d = true := by
  rw [FS.mkdirIfAbsent]
  split
  · assumption
  · simp [List.contains_cons]

theorem FS.unlink_write (fs : FS) (p : String) (c : FileData) :
    (fs.write p c).unlink p = fs.unlink p := by
  simp [FS.write, FS.unlink, List.filter_cons]

/-! Helper lemmas about the command pipeline. -/

/-- Unfolding equation for `_create_wheel_file` exposing the
`_wheel_body`/cleanup structure. -/
theorem create_wheel_file_eq (os : Os) (w : World) (cfg : Config)
    (distDir distInfoDir tgt : String) (fs : FS) :
    _create_wheel_file os w cfg distDir distInfoDir tgt fs =
      ((_wheel_body os w cfg distInfoDir tgt (wheelPathOf cfg distDir)
          (stagingDirOf w cfg)
          ((if ((fs.lookup (wheelPathOf cfg distDir)).isSome)
            then fs.unlink (wheelPathOf cfg distDir) else fs).mkdirIfAbsent
            (stagingDirOf w cfg))).1,
       (_wheel_body os w cfg distInfoDir tgt (wheelPathOf cfg distDir)
          (stagingDirOf w cfg)
          ((if ((fs.lookup (wheelPathOf cfg distDir)).isSome)
            then fs.unlink (wheelPathOf cfg distDir) else fs).mkdirIfAbsent
            (stagingDirOf w cfg))).2.removeTree (stagingDirOf w cfg)) := rfl

/-- On a world whose staging/serialization steps all succeed, `_wheel_body`
returns the archive path, having staged some intermediate tree `fs2`, then
the redirect file, then the serialized archive at the final path. -/
theorem wheel_body_ok (os : Os) (w : World) (cfg : Config)
    (distInfoDir tgt wp tmp : String) (fs : FS)
    (hcopy : w.copytreeFails = false)
    (hns : cfg.namespacePackages = [] ∨ w.namespaceEmitFails = false)
    (hser : w.wheelWriteFails = false) :
    ∃ fs2, _wheel_body os w cfg distInfoDir tgt wp tmp fs =
      (.ok wp,
       ((_populate_wheel cfg.distName tmp tgt fs2).write wp .halfWritten).write wp
         (.archive (stagedEntries
           ((_populate_wheel cfg.distName tmp tgt fs2).write wp .halfWritten) tmp))) := by
  by_cases hie : cfg.namespacePackages.isEmpty = true
  · refine ⟨(fs.copytree distInfoDir (pathJoin tmp (basename distInfoDir))), ?_⟩
    simp [_wheel_body, hcopy, hser, _install_namespaces, hie]
  · have hemit : w.namespaceEmitFails = false := by
      rcases hns with h | h
      · exact absurd (by simp [h]) hie
      · exact h
    refine ⟨(fs.copytree distInfoDir (pathJoin tmp (basename distInfoDir))).write
      ((⟨tmp, cfg.distName, tgt⟩ : _NamespaceInstaller).target ++ "-nspkg.pth")
      (.text (w.shimBody ++ (⟨tmp, cfg.distName, tgt⟩ : _NamespaceInstaller).root os)), ?_⟩
    simp [_wheel_body, hcopy, hser, _install_namespaces, hie, hemit]

/-- The entries serialized from a staged tree whose newest files are the
redirect file and the archive file opened at the (outside) final path:
the redirect entry comes first. -/
theorem stagedEntries_shape (fs2 : FS) (tmp wp name c : String)
    (hsep : strUnder tmp wp = false) :
    stagedEntries ((fs2.write (pathJoin tmp name) (.text c)).write wp .halfWritten) tmp
      = (name, c) :: stagedEntries fs2 tmp := by
  simp only [stagedEntries, FS.write, List.filterMap_cons, hsep, strUnder_pathJoin,
    Bool.false_eq_true, if_false, if_true]
  rw [relOf_pathJoin]

/-- On success conditions, `_create_wheel_file` returns the archive path. -/
theorem create_wheel_file_ok (os : Os) (w : World) (cfg : Config)
    (distDir distInfoDir tgt : String) (fs : FS)
    (hcopy : w.copytreeFails = false)
    (hns : cfg.namespacePackages = [] ∨ w.namespaceEmitFails = false)
    (hser : w.wheelWriteFails = false) :
    (_create_wheel_file os w cfg distDir distInfoDir tgt fs).1 =
      .ok (wheelPathOf cfg distDir) := by
  rw [create_wheel_file_eq]
  obtain ⟨fs2, hb⟩ := wheel_body_ok os w cfg distInfoDir tgt (wheelPathOf cfg distDir)
    (stagingDirOf w cfg) _ hcopy hns hser
  rw [hb]

/-- On success conditions, the final path holds the completed archive and
its first entry is the redirect file. -/
theorem create_wheel_file_success_lookup (os : Os) (w : World) (cfg : Config)
    (distDir distInfoDir tgt : String) (fs : FS)
    (hcopy : w.copytreeFails = false)
    (hns : cfg.namespacePackages = [] ∨ w.namespaceEmitFails = false)
    (hser : w.wheelWriteFails = false)
    (hsep : strUnder (stagingDirOf w cfg) (wheelPathOf cfg distDir) = false) :
    ∃ entries,
      ((_create_wheel_file os w cfg distDir distInfoDir tgt fs).2).lookup
          (wheelPathOf cfg distDir) = some (.archive entries) ∧
      entries.head? = some ("__editable__." ++ cfg.distName ++ ".pth", tgt ++ "\n") := by
  rw [create_wheel_file_eq]
  obtain ⟨fs2, hb⟩ := wheel_body_ok os w cfg distInfoDir tgt (wheelPathOf cfg distDir)
    (stagingDirOf w cfg) ((if ((fs.lookup (wheelPathOf cfg distDir)).isSome)
      then fs.unlink (wheelPathOf cfg distDir) else fs).mkdirIfAbsent
      (stagingDirOf w cfg)) hcopy hns hser
  rw [hb]
  have hshape : stagedEntries
      ((_populate_wheel cfg.distName (stagingDirOf w cfg) tgt fs2).write
        (wheelPathOf cfg distDir) .halfWritten) (stagingDirOf w cfg)
      = ("__editable__." ++ cfg.distName ++ ".pth", tgt ++ "\n") ::
        stagedEntries fs2 (stagingDirOf w cfg) := by
    rw [show _populate_wheel cfg.distName (stagingDirOf w cfg) tgt fs2 =
        fs2.write (pathJoin (stagingDirOf w cfg)
          ("__editable__." ++ cfg.distName ++ ".pth")) (.text (tgt ++ "\n")) from rfl]
    exact stagedEntries_shape _ _ _ _ _ hsep
  refine ⟨("__editable__." ++ cfg.distName ++ ".pth", tgt ++ "\n") ::
    stagedEntries fs2 (stagingDirOf w cfg), ?_, rfl⟩
  show (FS.removeTree _ _).lookup _ = _
  rw [FS.lookup_removeTree_of_not_under _ _ _ hsep, FS.lookup_write_self, hshape]

theorem eq_nil_of_isEmpty {α} {l : List α} (h : l.isEmpty = true) : l = [] := by
  cases l with
  | nil => rfl
  | cons a as => simp [List.isEmpty_cons] at h

/-- After the delete-if-present step, nothing is at the archive path. -/
theorem lookup_after_unlink_step (fs : FS) (wp : String) :
    (if ((fs.lookup wp).isSome) then fs.unlink wp else fs).lookup wp = none := by
  by_cases h : (fs.lookup wp).isSome = true
  · simp only [h, if_true]
    exact FS.lookup_unlink_self fs wp
  · cases hh : fs.lookup wp with
    | none => simp [hh]
    | some c => rw [hh] at h; exact absurd rfl h

/-- When serialization itself does not fail, a failing
`_create_wheel_file` leaves nothing at the archive path: the pre-existing
file was already deleted and every staged write is under the staging
directory. -/
theorem create_wheel_file_fail_lookup (os : Os) (w : World) (cfg : Config)
    (distDir distInfoDir tgt : String) (fs : FS)
    (hser : w.wheelWriteFails = false)
    (hsep : strUnder (stagingDirOf w cfg) (wheelPathOf cfg distDir) = false)
    (e : Err)
    (herr : (_create_wheel_file os w cfg distDir distInfoDir tgt fs).1 = .error e) :
    ((_create_wheel_file os w cfg distDir distInfoDir tgt fs).2).lookup
      (wheelPathOf cfg distDir) = none := by
  rw [create_wheel_file_eq] at herr ⊢
  have h0 : ((if ((fs.lookup (wheelPathOf cfg distDir)).isSome)
      then fs.unlink (wheelPathOf cfg distDir) else fs).mkdirIfAbsent
      (stagingDirOf w cfg)).lookup (wheelPathOf cfg distDir) = none := by
    rw [FS.lookup_mkdirIfAbsent]
    exact lookup_after_unlink_step fs _
  by_cases hc : w.copytreeFails = true
  · show (FS.removeTree _ _).lookup _ = none
    simp only [_wheel_body, hc, if_true]
    rw [FS.lookup_removeTree_of_not_under _ _ _ hsep]
    exact h0
  · rw [Bool.not_eq_true] at hc
    by_cases hie : cfg.namespacePackages.isEmpty = true
    · obtain ⟨fs2, hb⟩ := wheel_body_ok os w cfg distInfoDir tgt
        (wheelPathOf cfg distDir) (stagingDirOf w cfg) _ hc
        (Or.inl (eq_nil_of_isEmpty hie)) hser
      rw [hb] at herr
      simp at herr
    · by_cases hne : w.namespaceEmitFails = true
      · show (FS.removeTree _ _).lookup _ = none
        simp only [_wheel_body, hc, Bool.false_eq_true, if_false,
          _install_namespaces, hie, hne, if_true]
        rw [FS.lookup_removeTree_of_not_under _ _ _ hsep]
        rw [FS.lookup_copytree_of_ne]
        · exact h0
        · intro r
          rw [pathJoin_pathJoin]
          exact pathJoin_ne_of_not_under _ _ _ hsep
      · rw [Bool.not_eq_true] at hne
        obtain ⟨fs2, hb⟩ := wheel_body_ok os w cfg distInfoDir tgt
          (wheelPathOf cfg distDir) (stagingDirOf w cfg) _ hc (Or.inr hne) hser
        rw [hb] at herr
        simp at herr

/-- Shape of a successful `_ensure_dist_info`: the directory used is
`usedDistInfoDir`, and the filesystem is unchanged (supplied case) or has
gained the generated `METADATA` file (generated case). -/
theorem ensure_ok_shape (w : World) (cfg : Config) (distDir : String) (fs : FS)
    (d0 : String) (fs1 : FS)
    (h : _ensure_dist_info w cfg distDir fs = .ok (d0, fs1)) :
    d0 = usedDistInfoDir w cfg distDir ∧
    (fs1 = fs ∨ fs1 = fs.write (pathJoin (usedDistInfoDir w cfg distDir) "METADATA")
      (.text w.metadataContent)) := by
  cases hdo : cfg.distInfoDirOpt with
  | none =>
    simp only [_ensure_dist_info, hdo] at h
    by_cases hg : w.distInfoGenFails = true
    · rw [hg] at h; simp at h
    · rw [Bool.not_eq_true] at hg
      rw [hg] at h
      simp only [Bool.false_eq_true, if_false] at h
      injection h with h'
      injection h' with h1 h2
      simp only [usedDistInfoDir, hdo]
      exact ⟨h1.symm, Or.inr h2.symm⟩
  | some d =>
    simp only [_ensure_dist_info, hdo] at h
    by_cases hends : strEndsWith d ".dist-info" = true
    · rw [hends] at h
      simp only [Bool.not_true, Bool.false_eq_true, if_false] at h
      by_cases hmeta : (fs.lookup (pathJoin d "METADATA")).isNone = true
      · rw [hmeta] at h; simp at h
      · rw [Bool.not_eq_true] at hmeta
        rw [hmeta] at h
        simp only [Bool.false_eq_true, if_false] at h
        injection h with h'
        injection h' with h1 h2
        rw [usedDistInfoDir, hdo]
        exact ⟨h1.symm, Or.inl h2.symm⟩
    · rw [Bool.not_eq_true] at hends
      rw [hends] at h
      simp at h

/-- When no delegated call fails and a supplied dist-info directory (if
any) is valid, the whole build succeeds — and its value is `none`, because
`run` discards the path `_create_wheel_file` returns. -/
theorem build_ok (os : Os) (w : World) (cfg : Config) (fs : FS)
    (hgen : w.distInfoGenFails = false)
    (hwf : w.writeWheelfileFails = false)
    (hbe : w.buildExtFails = false)
    (hcopy : w.copytreeFails = false)
    (hns : cfg.namespacePackages = [] ∨ w.namespaceEmitFails = false)
    (hser : w.wheelWriteFails = false)
    (hvalid : ∀ d, cfg.distInfoDirOpt = some d → strEndsWith d ".dist-info" = true ∧
      (fs.lookup (pathJoin d "METADATA")).isNone = false) :
    (build os w cfg fs).1 = .ok none := by
  cases hdo : cfg.distInfoDirOpt with
  | none =>
    simp only [build, run, _ensure_dist_info, hdo, hgen, Bool.false_eq_true, if_false,
      hwf, hbe]
    rw [create_wheel_file_ok os w cfg _ _ _ _ hcopy hns hser]
  | some d =>
    obtain ⟨hends, hmeta⟩ := hvalid d hdo
    have hmeta' : ((finalize_options os cfg fs).lookup (pathJoin d "METADATA")).isNone
        = false := by
      show ((fs.mkdirIfAbsent (distDirOf os cfg)).lookup (pathJoin d "METADATA")).isNone
        = false
      rw [FS.lookup_mkdirIfAbsent]
      exact hmeta
    simp only [build, run, _ensure_dist_info, hdo, hends, Bool.not_true,
      Bool.false_eq_true, if_false, hmeta', hwf, hbe]
    rw [create_wheel_file_ok os w cfg _ _ _ _ hcopy hns hser]

/-- When serialization itself does not fail, a failing build leaves the
archive path either empty (failure after the delete step) or exactly as it
was before the build (failure before it). -/
theorem build_fail_lookup (os : Os) (w : World) (cfg : Config) (fs : FS) (e : Err)
    (hser : w.wheelWriteFails = false)
    (hsep : strUnder (stagingDirOf w cfg) (wheelPathOf cfg (distDirOf os cfg)) = false)
    (hdi : strUnder (usedDistInfoDir w cfg (distDirOf os cfg))
      (wheelPathOf cfg (distDirOf os cfg)) = false)
    (herr : (build os w cfg fs).1 = .error e) :
    ((build os w cfg fs).2).lookup (wheelPathOf cfg (distDirOf os cfg)) = none ∨
    ((build os w cfg fs).2).lookup (wheelPathOf cfg (distDirOf os cfg)) =
      fs.lookup (wheelPathOf cfg (distDirOf os cfg)) := by
  cases hens : _ensure_dist_info w cfg (distDirOf os cfg) (finalize_options os cfg fs) with
  | error e1 =>
    simp only [build, run, hens] at herr ⊢
    refine Or.inr ?_
    show (fs.mkdirIfAbsent _).lookup _ = _
    rw [FS.lookup_mkdirIfAbsent]
  | ok pr =>
    obtain ⟨d0, fs1⟩ := pr
    obtain ⟨hd0, hfs1⟩ := ensure_ok_shape w cfg _ _ _ _ hens
    have hpres : fs1.lookup (wheelPathOf cfg (distDirOf os cfg)) =
        fs.lookup (wheelPathOf cfg (distDirOf os cfg)) := by
      rcases hfs1 with h | h
      · rw [h]
        show (fs.mkdirIfAbsent _).lookup _ = _
        rw [FS.lookup_mkdirIfAbsent]
      · rw [h, FS.lookup_write_ne]
        · show (fs.mkdirIfAbsent _).lookup _ = _
          rw [FS.lookup_mkdirIfAbsent]
        · exact pathJoin_ne_of_not_under _ _ _ hdi
    simp only [build, run, hens] at herr ⊢
    by_cases hwf : w.writeWheelfileFails = true
    · simp only [hwf, if_true] at herr ⊢
      exact Or.inr hpres
    · rw [Bool.not_eq_true] at hwf
      simp only [hwf, Bool.false_eq_true, if_false] at herr ⊢
      by_cases hbe : w.buildExtFails = true
      · simp only [hbe, if_true] at herr ⊢
        refine Or.inr ?_
        rw [FS.lookup_write_ne, hpres]
        refine pathJoin_ne_of_not_under _ _ _ ?_
        rw [hd0]
        exact hdi
      · rw [Bool.not_eq_true] at hbe
        simp only [hbe, Bool.false_eq_true, if_false] at herr ⊢
        cases hR : (_create_wheel_file os w cfg (distDirOf os cfg) d0 (target os cfg)
            (fs1.write (pathJoin d0 "WHEEL") (.text w.wheelMetaContent))).1 with
        | ok p =>
          rw [hR] at herr
          simp at herr
        | error e2 =>
          exact Or.inl (create_wheel_file_fail_lookup os w cfg _ _ _ _ hser hsep e2 hR)

/-! Claim theorems. -/

/-- C1: for every build over valid inputs, the redirect file placed in the
staging directory (and hence the first entry of the produced archive) is
named `__editable__.{name}.pth` and its content is exactly the normalized
target path followed by a trailing newline, and nothing else. -/
theorem c1_redirect_file (os : Os) (w : World) (cfg : Config)
    (distDir distInfoDir : String) (fs : FS)
    (hcopy : w.copytreeFails = false)
    (hns : cfg.namespacePackages = [] ∨ w.namespaceEmitFails = false)
    (hser : w.wheelWriteFails = false)
    (hsep : strUnder (stagingDirOf w cfg) (wheelPathOf cfg distDir) = false) :
    (∀ fs' : FS,
      (_populate_wheel cfg.distName (stagingDirOf w cfg) (target os cfg) fs').lookup
        (pathJoin (stagingDirOf w cfg) ("__editable__." ++ cfg.distName ++ ".pth"))
        = some (.text (target os cfg ++ "\n"))) ∧
    ∃ entries,
      ((_create_wheel_file os w cfg distDir distInfoDir (target os cfg) fs).2).lookup
          (wheelPathOf cfg distDir) = some (.archive entries) ∧
      entries.head? = some ("__editable__." ++ cfg.distName ++ ".pth",
        target os cfg ++ "\n") := by
  constructor
  · intro fs'
    exact FS.lookup_write_self fs' _ _
  · exact create_wheel_file_success_lookup os w cfg distDir distInfoDir
      (target os cfg) fs hcopy hns hser hsep

/-- Witness for C1 at a concrete build. -/
theorem c1_redirect_file_witness :
    ∃ entries,
      ((_create_wheel_file posixOs wA cfgA "/proj/dist" "/proj/dist/foo-1.0.dist-info"
          (target posixOs cfgA) fsA).2).lookup (wheelPathOf cfgA "/proj/dist")
        = some (.archive entries) ∧
      entries.head? = some ("__editable__." ++ cfgA.distName ++ ".pth",
        target posixOs cfgA ++ "\n") :=
  (c1_redirect_file posixOs wA cfgA "/proj/dist" "/proj/dist/foo-1.0.dist-info" fsA
    rfl (Or.inl rfl) rfl (by decide)).2

/-- C2: the produced archive path is
`{dist_dir}/{name}-{build_tag}-{tag}.whl` with the fixed build tag
`0.editable`, which starts with the digit `0`. -/
theorem c2_archive_name (os : Os) (w : World) (cfg : Config)
    (distDir distInfoDir tgt : String) (fs : FS)
    (hcopy : w.copytreeFails = false)
    (hns : cfg.namespacePackages = [] ∨ w.namespaceEmitFails = false)
    (hser : w.wheelWriteFails = false) :
    build_tag = "0.editable" ∧
    build_tag.data.head? = some '0' ∧
    '0'.isDigit = true ∧
    wheelPathOf cfg distDir = distDir ++ "/" ++ (cfg.distName ++ "-" ++ build_tag
      ++ "-" ++ String.intercalate "-" cfg.tagComponents ++ ".whl") ∧
    (_create_wheel_file os w cfg distDir distInfoDir tgt fs).1 =
      .ok (wheelPathOf cfg distDir) :=
  ⟨rfl, rfl, rfl, rfl, create_wheel_file_ok os w cfg distDir distInfoDir tgt fs
    hcopy hns hser⟩

/-- Witness for C2 at a concrete build. -/
theorem c2_archive_name_witness :
    wheelPathOf cfgA "/proj/dist" = "/proj/dist/foo-1.0-0.editable-py3-none-any.whl" ∧
    (_create_wheel_file posixOs wA cfgA "/proj/dist" "/proj/dist/foo-1.0.dist-info"
      "/proj" fsA).1 = .ok (wheelPathOf cfgA "/proj/dist") := by
  refine ⟨by decide, ?_⟩
  exact (c2_archive_name posixOs wA cfgA "/proj/dist" "/proj/dist/foo-1.0.dist-info"
    "/proj" fsA rfl (Or.inl rfl) rfl).2.2.2.2

/-- C4: whether the archive-creation phase returns normally or raises, the
temporary staging directory is removed before control returns. -/
theorem c4_staging_cleanup (os : Os) (w : World) (cfg : Config)
    (distDir distInfoDir tgt : String) (fs : FS) :
    ((_create_wheel_file os w cfg distDir distInfoDir tgt fs).2).dirs.contains
      (stagingDirOf w cfg) = false := by
  rw [create_wheel_file_eq]
  exact FS.removeTree_contains_self _ _

/-- C3: an externally supplied dist-info directory whose name lacks the
`.dist-info` suffix or which lacks a `METADATA` file makes the build fail
with the validation error before any file is touched; when both conditions
hold, validation passes and the supplied directory is used unchanged. -/
theorem c3_dist_info_validation (os : Os) (w : World) (cfg : Config) (fs : FS)
    (d : String) (hconf : cfg.distInfoDirOpt = some d) :
    ((strEndsWith d ".dist-info" = false ∨
        (fs.lookup (pathJoin d "METADATA")).isNone = true) →
      (build os w cfg fs).1 = .error .assertionError ∧
      (build os w cfg fs).2.files = fs.files) ∧
    (strEndsWith d ".dist-info" = true →
      ∀ distDir (fs' : FS), (fs'.lookup (pathJoin d "METADATA")).isNone = false →
        _ensure_dist_info w cfg distDir fs' = .ok (d, fs')) := by
  constructor
  · intro hbad
    cases hends : strEndsWith d ".dist-info" with
    | false =>
      simp only [build, run, _ensure_dist_info, hconf, hends, Bool.not_false, if_true]
      exact ⟨trivial, FS.files_mkdirIfAbsent fs _⟩
    | true =>
      have hmeta : (fs.lookup (pathJoin d "METADATA")).isNone = true := by
        rcases hbad with h | h
        · rw [hends] at h; exact absurd h (by simp)
        · exact h
      have hmeta' : (((finalize_options os cfg fs).lookup
          (pathJoin d "METADATA")).isNone) = true := by
        show (((fs.mkdirIfAbsent (distDirOf os cfg)).lookup
          (pathJoin d "METADATA")).isNone) = true
        rw [FS.lookup_mkdirIfAbsent]
        exact hmeta
      simp only [build, run, _ensure_dist_info, hconf, hends, Bool.not_true,
        Bool.false_eq_true, if_false, hmeta', if_true]
      exact ⟨trivial, FS.files_mkdirIfAbsent fs _⟩
  · intro hends distDir fs' hmeta
    simp only [_ensure_dist_info, hconf, hends, Bool.not_true, Bool.false_eq_true,
      if_false, hmeta]

/-- Witness for C3: an invalid suffix fails the build; a valid supplied
directory passes validation unchanged. -/
theorem c3_dist_info_validation_witness :
    (build posixOs wA cfgBadSuffix fsA).1 = .error .assertionError ∧
    _ensure_dist_info wA cfgSupplied "/proj/dist" fsSupplied =
      .ok ("/proj/foo-1.0.dist-info", fsSupplied) := by
  refine ⟨((c3_dist_info_validation posixOs wA cfgBadSuffix fsA "/proj/meta" rfl).1
    (Or.inl (by decide))).1, ?_⟩
  exact (c3_dist_info_validation posixOs wA cfgSupplied fsSupplied
    "/proj/foo-1.0.dist-info" rfl).2 (by decide) "/proj/dist" fsSupplied (by decide)

/-- C5 counterexample: a build whose archive serialization fails leaves a
half-written file at the final destination path (the wheel file is opened
at the final path, not in staging), on a filesystem where nothing was at
that path before. -/
theorem c5_counterexample :
    (build posixOs wSerFail cfgA fsA).1 = .error .serializeError ∧
    fsA.lookup (wheelPathOf cfgA (distDirOf posixOs cfgA)) = none ∧
    ((build posixOs wSerFail cfgA fsA).2).lookup
      (wheelPathOf cfgA (distDirOf posixOs cfgA)) = some .halfWritten :=
  ⟨rfl, rfl, rfl⟩

/-- C5 (amended): for every build that fails at a step other than archive
serialization, the final destination path holds nothing (failure after the
delete step) or exactly its previous content (failure before it); archive
serialization itself writes directly at the final path, so its failures
are excluded. -/
theorem c5_no_partial_output (os : Os) (w : World) (cfg : Config) (fs : FS) (e : Err)
    (hser : w.wheelWriteFails = false)
    (hsep : strUnder (stagingDirOf w cfg) (wheelPathOf cfg (distDirOf os cfg)) = false)
    (hdi : strUnder (usedDistInfoDir w cfg (distDirOf os cfg))
      (wheelPathOf cfg (distDirOf os cfg)) = false)
    (herr : (build os w cfg fs).1 = .error e) :
    ((build os w cfg fs).2).lookup (wheelPathOf cfg (distDirOf os cfg)) = none ∨
    ((build os w cfg fs).2).lookup (wheelPathOf cfg (distDirOf os cfg)) =
      fs.lookup (wheelPathOf cfg (distDirOf os cfg)) :=
  build_fail_lookup os w cfg fs e hser hsep hdi herr

/-- Witness for C5 (amended) at a build failing in extension compilation. -/
theorem c5_no_partial_output_witness :
    ((build posixOs wExtFail cfgA fsA).2).lookup
        (wheelPathOf cfgA (distDirOf posixOs cfgA)) = none ∨
    ((build posixOs wExtFail cfgA fsA).2).lookup
        (wheelPathOf cfgA (distDirOf posixOs cfgA)) =
      fsA.lookup (wheelPathOf cfgA (distDirOf posixOs cfgA)) :=
  c5_no_partial_output posixOs wExtFail cfgA fsA .buildExtError rfl (by decide)
    (by decide) rfl

/-- C6 counterexample: a successful build's `run` returns `None`, not the
produced archive path. -/
theorem c6_counterexample :
    (build posixOs wA cfgA fsA).1 = .ok none ∧
    decide ((none : Option String) =
      some (wheelPathOf cfgA (distDirOf posixOs cfgA))) = false :=
  ⟨rfl, rfl⟩

/-- C6 (amended): on success the internal archive-creation step returns the
archive path to `run`, but `run` discards it and the build returns no
value (`None`). -/
theorem c6_return_value (os : Os) (w : World) (cfg : Config) (fs : FS)
    (hgen : w.distInfoGenFails = false)
    (hwf : w.writeWheelfileFails = false)
    (hbe : w.buildExtFails = false)
    (hcopy : w.copytreeFails = false)
    (hns : cfg.namespacePackages = [] ∨ w.namespaceEmitFails = false)
    (hser : w.wheelWriteFails = false)
    (hvalid : ∀ d, cfg.distInfoDirOpt = some d → strEndsWith d ".dist-info" = true ∧
      (fs.lookup (pathJoin d "METADATA")).isNone = false) :
    (∀ distDir distInfoDir tgt (fs' : FS),
      (_create_wheel_file os w cfg distDir distInfoDir tgt fs').1 =
        .ok (wheelPathOf cfg distDir)) ∧
    (build os w cfg fs).1 = .ok none :=
  ⟨fun distDir distInfoDir tgt fs' =>
    create_wheel_file_ok os w cfg distDir distInfoDir tgt fs' hcopy hns hser,
   build_ok os w cfg fs hgen hwf hbe hcopy hns hser hvalid⟩

/-- Witness for C6 (amended) at a concrete successful build. -/
theorem c6_return_value_witness :
    (_create_wheel_file posixOs wA cfgA "/proj/dist" "/proj/dist/foo-1.0.dist-info"
      "/proj" fsA).1 = .ok (wheelPathOf cfgA "/proj/dist") ∧
    (build posixOs wA cfgA fsA).1 = .ok none := by
  have h := c6_return_value posixOs wA cfgA fsA rfl rfl rfl rfl (Or.inl rfl) rfl
    (fun d hd => nomatch hd)
  exact ⟨h.1 "/proj/dist" "/proj/dist/foo-1.0.dist-info" "/proj" fsA, h.2⟩

/-- C7 counterexample: with `package_dir = {"": ""}` (a configured
root-package entry whose value is the empty string) and source root
`/proj`, on a POSIX platform with working directory `/cwd`, the code
resolves the target from the project root (`/proj`), not from the
configured entry (`""`, which normalizes to `/cwd`), so the claim's
"when one is configured" reading fails. -/
theorem c7_counterexample :
    target posixOs cfgEmptyRootEntry = "/proj" ∧
    targetSpec posixOs cfgEmptyRootEntry = "/cwd" ∧
    (target posixOs cfgEmptyRootEntry == targetSpec posixOs cfgEmptyRootEntry)
      = false :=
  ⟨rfl, rfl, rfl⟩

/-- C7 (amended): the resolved target equals the normalization of the
configured root-package entry when one is configured and non-empty, and of
the project root directory when the entry is missing or empty; the
normalization is `normcase ∘ realpath ∘ normpath` with an `abspath`
pre-pass only on cygwin. -/
theorem c7_target_resolution (os : Os) (cfg : Config) :
    (∀ s, packageDirGet cfg "" = some s → s ≠ "" →
      target os cfg = _normalize_path os s) ∧
    ((packageDirGet cfg "" = none ∨ packageDirGet cfg "" = some "") →
      target os cfg = _normalize_path os (projectDirOf os cfg)) ∧
    (∀ f, _normalize_path os f = os.normcase (os.realpath (os.normpath
      (if os.isCygwin then os.abspath f else f)))) := by
  refine ⟨?_, ?_, fun f => rfl⟩
  · intro s hs hne
    simp [target, orElseStr, hs, hne]
  · intro h
    rcases h with h | h <;> simp [target, orElseStr, h]

/-- Witness for C7 (amended): both the configured non-empty entry and the
missing-entry fallback at concrete configurations. -/
theorem c7_target_resolution_witness :
    target posixOs cfgPkgDir = _normalize_path posixOs "/src" ∧
    target posixOs cfgA = _normalize_path posixOs (projectDirOf posixOs cfgA) :=
  ⟨(c7_target_resolution posixOs cfgPkgDir).1 "/src" rfl (by decide),
   (c7_target_resolution posixOs cfgA).2.1 (Or.inl rfl)⟩

/-- C8: the namespace installer runs exactly when legacy namespace
packages are declared, and is constructed with installation target
`staging/name` and module search root `repr(target)`. -/
theorem c8_namespace_installer (os : Os) (w : World) (cfg : Config) (fs : FS)
    (hemit : w.namespaceEmitFails = false) :
    (cfg.namespacePackages = [] →
      _install_namespaces os w cfg (stagingDirOf w cfg) cfg.distName (target os cfg)
        fs = .ok (none, fs)) ∧
    (cfg.namespacePackages ≠ [] →
      ∃ inst fs',
        _install_namespaces os w cfg (stagingDirOf w cfg) cfg.distName
          (target os cfg) fs = .ok (some inst, fs') ∧
        inst.target = pathJoin (stagingDirOf w cfg) cfg.distName ∧
        inst.root os = os.reprStr (target os cfg) ∧
        inst.installation_dir = stagingDirOf w cfg ∧
        inst.editable_name = cfg.distName ∧
        inst.src_root = target os cfg) := by
  constructor
  · intro h
    simp [_install_namespaces, h]
  · intro h
    have hie : cfg.namespacePackages.isEmpty = false := by
      cases hnp : cfg.namespacePackages with
      | nil => exact absurd hnp h
      | cons a as => simp [List.isEmpty_cons]
    refine ⟨⟨stagingDirOf w cfg, cfg.distName, target os cfg⟩,
      fs.write ((⟨stagingDirOf w cfg, cfg.distName, target os cfg⟩ :
          _NamespaceInstaller).target ++ "-nspkg.pth")
        (.text (w.shimBody ++ (⟨stagingDirOf w cfg, cfg.distName, target os cfg⟩ :
          _NamespaceInstaller).root os)),
      ?_, rfl, rfl, rfl, rfl, rfl⟩
    simp [_install_namespaces, hie, hemit]

/-- Witness for C8 at a distribution declaring the namespace package
`ns`. -/
theorem c8_namespace_installer_witness :
    _install_namespaces posixOs wA cfgA (stagingDirOf wA cfgA) cfgA.distName
      (target posixOs cfgA) fsA = .ok (none, fsA) ∧
    ∃ inst fs',
      _install_namespaces posixOs wA cfgNs (stagingDirOf wA cfgNs) cfgNs.distName
        (target posixOs cfgNs) fsA = .ok (some inst, fs') ∧
      inst.target = pathJoin (stagingDirOf wA cfgNs) cfgNs.distName ∧
      inst.root posixOs = posixOs.reprStr (target posixOs cfgNs) ∧
      inst.installation_dir = stagingDirOf wA cfgNs ∧
      inst.editable_name = cfgNs.distName ∧
      inst.src_root = target posixOs cfgNs :=
  ⟨(c8_namespace_installer posixOs wA cfgA fsA rfl).1 rfl,
   (c8_namespace_installer posixOs wA cfgNs fsA rfl).2 (by decide)⟩

/-- C9: a pre-existing file at the final archive path is deleted before
staging begins — the build's outcome is literally independent of the old
content — and after a successful build the path holds the newly serialized
archive. -/
theorem c9_preexisting_replaced (os : Os) (w : World) (cfg : Config)
    (distDir distInfoDir tgt : String) (fs : FS) (old : FileData)
    (hcopy : w.copytreeFails = false)
    (hns : cfg.namespacePackages = [] ∨ w.namespaceEmitFails = false)
    (hser : w.wheelWriteFails = false)
    (hsep : strUnder (stagingDirOf w cfg) (wheelPathOf cfg distDir) = false) :
    (_create_wheel_file os w cfg distDir distInfoDir tgt
        (fs.write (wheelPathOf cfg distDir) old)
      = _create_wheel_file os w cfg distDir distInfoDir tgt
        (fs.unlink (wheelPathOf cfg distDir))) ∧
    ∃ entries,
      ((_create_wheel_file os w cfg distDir distInfoDir tgt
          (fs.write (wheelPathOf cfg distDir) old)).2).lookup
        (wheelPathOf cfg distDir) = some (.archive entries) := by
  constructor
  · rw [create_wheel_file_eq, create_wheel_file_eq]
    rw [FS.lookup_write_self, FS.lookup_unlink_self]
    simp only [Option.isSome_some, if_true, Option.isSome_none,
      Bool.false_eq_true, if_false, FS.unlink_write]
  · obtain ⟨entries, h, _⟩ := create_wheel_file_success_lookup os w cfg distDir
      distInfoDir tgt (fs.write (wheelPathOf cfg distDir) old) hcopy hns hser hsep
    exact ⟨entries, h⟩

/-- Witness for C9 at a concrete build over a pre-existing archive file. -/
theorem c9_preexisting_replaced_witness :
    ∃ entries,
      ((_create_wheel_file posixOs wA cfgA "/proj/dist" "/proj/dist/foo-1.0.dist-info"
          "/proj" (fsA.write (wheelPathOf cfgA "/proj/dist") (.text "old bytes"))).2).lookup
        (wheelPathOf cfgA "/proj/dist") = some (.archive entries) :=
  (c9_preexisting_replaced posixOs wA cfgA "/proj/dist" "/proj/dist/foo-1.0.dist-info"
    "/proj" fsA (.text "old bytes") rfl (Or.inl rfl) rfl (by decide)).2

/-- C10: the output directory defaults to `{project_dir}/dist` when not
configured, is present on disk after option finalization, and the build is
exactly option finalization followed by `run`. -/
theorem c10_dist_dir_default (os : Os) (w : World) (cfg : Config) (fs : FS) :
    (cfg.distDirOpt = none →
      distDirOf os cfg = pathJoin (projectDirOf os cfg) "dist") ∧
    (finalize_options os cfg fs).dirs.contains (distDirOf os cfg) = true ∧
    build os w cfg fs = run os w cfg (distDirOf os cfg) (finalize_options os cfg fs) := by
  refine ⟨?_, FS.mkdirIfAbsent_contains_self fs _, rfl⟩
  intro h
  simp [distDirOf, orElseStr, h]

/-- Witness for C10 at a concrete configuration with no configured output
directory. -/
theorem c10_dist_dir_default_witness :
    distDirOf posixOs cfgA = pathJoin (projectDirOf posixOs cfgA) "dist" ∧
    (finalize_options posixOs cfgA fsA).dirs.contains (distDirOf posixOs cfgA)
      = true :=
  ⟨(c10_dist_dir_default posixOs wA cfgA fsA).1 rfl,
   (c10_dist_dir_default posixOs wA cfgA fsA).2.1⟩

end EditableWheel
